import Mathlib

/-!
Verification of `pudl/workspace/datastore.py`: the resource-key/descriptor
data model, the Zenodo fetch client and the Datastore facade, shallowly
embedded in Lean.  Stateful code (the layered cache, the fetcher's
descriptor memoization, network traffic) is modelled by explicit state
passing; Python exceptions become `Except`; Python dicts become
association lists.  Definitions come first, theorems follow.
-/

/-- Byte strings are modelled as lists of natural numbers. -/
abbrev Bytes := List Nat

/-- Association-list lookup, mirroring Python `dict.get`. -/
def alget {α β : Type} [DecidableEq α] : List (α × β) → α → Option β
  | [], _ => Option.none
  | (k, v) :: rest, k' => if k = k' then some v else alget rest k'

/-- `PudlResourceKey` from `pudl.workspace.resource_cache`: the immutable
(dataset, doi, name) triple used as the cache and lookup key. -/
structure PudlResourceKey where
  dataset : String
  doi : String
  name : String
deriving DecidableEq

/-- A Python value as it appears in the `parts` metadata mapping of a
manifest entry and in partition filters: `None`, a string, an integer or
a boolean. -/
inductive PyVal where
  | pyNone : PyVal
  | pyStrV (s : String) : PyVal
  | pyIntV (n : Int) : PyVal
  | pyBoolV (b : Bool) : PyVal
deriving DecidableEq

/-- Python `str()` coercion on the values above: `str(None) = "None"`,
`str(True) = "True"`, integers print in decimal. -/
def pyStr : PyVal → String
  | PyVal.pyNone => "None"
  | PyVal.pyStrV s => s
  | PyVal.pyIntV n => toString n
  | PyVal.pyBoolV true => "True"
  | PyVal.pyBoolV false => "False"

/-- One entry of the manifest's `resources` array: `name`, optional
`path`, optional `remote_url`, and the `parts` partition-metadata dict. -/
structure ResourceEntry where
  name : String
  path : Option String
  remote_url : Option String
  parts : List (String × PyVal)
deriving DecidableEq

/-- `DatapackageDescriptor`: wraps the parsed `datapackage.json` (its
`resources` array) together with the dataset name and DOI. -/
structure DatapackageDescriptor where
  resources : List ResourceEntry
  dataset : String
  doi : String
deriving DecidableEq

/-- Python `a or b` on optional strings: `a` wins iff it is truthy,
i.e. present and non-empty; otherwise the result is `b` unchanged. -/
def pyOr (a b : Option String) : Option String :=
  match a with
  | some s => if s = "" then b else some s
  | Option.none => b

/-- `DatapackageDescriptor.get_resource_path`: scan the `resources` array
for the first entry with the given name and return
`res.get("remote_url") or res.get("path")`; raise `KeyError` when no
entry matches.  The `Option.none` result value models Python returning
`None` when both fields are absent. -/
def DatapackageDescriptor.get_resource_path (d : DatapackageDescriptor)
    (name : String) : Except String (Option String) :=
  match d.resources.find? (fun r => decide (r.name = name)) with
  | some r => Except.ok (pyOr r.remote_url r.path)
  | Option.none =>
      Except.error ("Resource " ++ name ++ " not found for "
        ++ d.dataset ++ "/" ++ d.doi)

/-- `parts.get(k)` with Python's `None` default. -/
def pyDictGet (parts : List (String × PyVal)) (k : String) : PyVal :=
  match alget parts k with
  | some v => v
  | Option.none => PyVal.pyNone

/-- `DatapackageDescriptor._matches`: an entry matches the filters iff
`str(parts.get(k)) == str(v)` for every filter pair `(k, v)`. -/
def matchesFilters (r : ResourceEntry)
    (filters : List (String × PyVal)) : Bool :=
  filters.all (fun kv => decide (pyStr (pyDictGet r.parts kv.1) = pyStr kv.2))

/-- The name test of `DatapackageDescriptor.get_resources`:
`if name and res["name"] != name: continue`.  A `None` (or empty, i.e.
falsy) name never skips anything. -/
def skipByName (name : Option String) (rname : String) : Bool :=
  match name with
  | Option.none => false
  | some n => if n = "" then false else decide (rname ≠ n)

/-- `DatapackageDescriptor.get_resources`: yield a `PudlResourceKey` for
every entry of the `resources` array, in order, that passes the name test
and matches the filters. -/
def DatapackageDescriptor.get_resources (d : DatapackageDescriptor)
    (name : Option String) (filters : List (String × PyVal)) :
    List PudlResourceKey :=
  d.resources.filterMap (fun r =>
    if skipByName name r.name then Option.none
    else if matchesFilters r filters then
      some (PudlResourceKey.mk d.dataset d.doi r.name)
    else Option.none)

/-- Entry exhibiting the truthiness behaviour of `get_resource_path`:
`remote_url` is present but equal to the empty string. -/
def emptyRemoteEntry : ResourceEntry :=
  ResourceEntry.mk "r1" (some "p") (some "") []

/-- Descriptor holding `emptyRemoteEntry`. -/
def emptyRemoteDesc : DatapackageDescriptor :=
  DatapackageDescriptor.mk [emptyRemoteEntry] "ds" "doi"

/-- Modelled from the spec: `LayeredCache`
(`pudl.workspace.resource_cache`, outside the analysed sources) presents a
single get/set/contains surface over its layers (spec section 4.2); it is
abstracted here as one key-value association list.  Read of a key. -/
def cacheGet (c : List (PudlResourceKey × Bytes)) (k : PudlResourceKey) :
    Option Bytes :=
  alget c k

/-- Modelled from the spec: `LayeredCache.set` — overwrite the blob stored
under a key. -/
def cacheSet (c : List (PudlResourceKey × Bytes)) (k : PudlResourceKey)
    (b : Bytes) : List (PudlResourceKey × Bytes) :=
  (k, b) :: c.filter (fun p => decide (p.1 ≠ k))

/-- Modelled from the spec: `LayeredCache.contains` — true iff some layer
holds the key. -/
def cacheContains (c : List (PudlResourceKey × Bytes))
    (k : PudlResourceKey) : Bool :=
  (cacheGet c k).isSome

/-- The mutable state a `Datastore` call threads: the layered cache's
contents plus a log of the resource keys fetched over the network. -/
structure DSState where
  cache : List (PudlResourceKey × Bytes)
  fetchLog : List PudlResourceKey
deriving DecidableEq

/-- The per-key body of the `Datastore.get_resources` loop: on a cache hit
yield the cached bytes and leave the state alone; on a miss call
`ZenodoFetcher.get_resource` (the `fetcher` oracle), write the bytes into
the cache with `cache.set`, log the network fetch, and yield the bytes. -/
def fetchOne (fetcher : PudlResourceKey → Bytes) (st : DSState)
    (k : PudlResourceKey) : (PudlResourceKey × Bytes) × DSState :=
  match cacheGet st.cache k with
  | some b => ((k, b), st)
  | Option.none =>
      ((k, fetcher k),
        DSState.mk (cacheSet st.cache k (fetcher k)) (st.fetchLog ++ [k]))

/-- Running the `Datastore.get_resources` generator to exhaustion over a
list of matching keys, threading the state. -/
def runResources (fetcher : PudlResourceKey → Bytes) :
    List PudlResourceKey → DSState →
    List (PudlResourceKey × Bytes) × DSState
  | [], st => ([], st)
  | k :: ks, st =>
      let p := fetchOne fetcher st k
      let rest := runResources fetcher ks p.2
      (p.1 :: rest.1, rest.2)

/-- Consuming only the first `n` items of the `Datastore.get_resources`
generator: the remaining keys are never processed. -/
def runResourcesTake (fetcher : PudlResourceKey → Bytes) :
    Nat → List PudlResourceKey → DSState →
    List (PudlResourceKey × Bytes) × DSState
  | 0, _, st => ([], st)
  | _ + 1, [], st => ([], st)
  | n + 1, k :: ks, st =>
      let p := fetchOne fetcher st k
      let rest := runResourcesTake fetcher n ks p.2
      (p.1 :: rest.1, rest.2)

/-- `Datastore.get_resources`: enumerate the descriptor's matching keys
(name never passed, so `None`) and stream each through the cache-or-fetch
step. -/
def Datastore.get_resources (desc : DatapackageDescriptor)
    (fetcher : PudlResourceKey → Bytes) (filters : List (String × PyVal))
    (st : DSState) : List (PudlResourceKey × Bytes) × DSState :=
  runResources fetcher (desc.get_resources Option.none filters) st

/-- The two `KeyError` variants `Datastore.get_unique_resource` raises:
zero matches ("No resources found ...") and two or more matches
("Multiple resources found ..."). -/
inductive LookupErr where
  | notFound (msg : String) : LookupErr
  | ambiguous (msg : String) : LookupErr
deriving DecidableEq

/-- `Datastore.get_unique_resource`: pull the generator once (zero items
raises the not-found `KeyError`), pull it a second time (exhaustion
returns the single content; a second item raises the multiple-resources
`KeyError`).  Pulling twice runs the cache-or-fetch step for the first
two matching keys only. -/
def Datastore.get_unique_resource (desc : DatapackageDescriptor)
    (fetcher : PudlResourceKey → Bytes) (filters : List (String × PyVal))
    (st : DSState) : Except LookupErr Bytes × DSState :=
  match desc.get_resources Option.none filters with
  | [] =>
      (Except.error (LookupErr.notFound
        ("No resources found for " ++ desc.dataset)), st)
  | [k] =>
      let p := fetchOne fetcher st k
      (Except.ok p.1.2, p.2)
  | k1 :: k2 :: _ =>
      let p1 := fetchOne fetcher st k1
      let p2 := fetchOne fetcher p1.2 k2
      (Except.error (LookupErr.ambiguous
        ("Multiple resources found for " ++ desc.dataset)), p2.2)

/-- Boolean test that `needle` is an initial segment of `hay` (on
character lists). -/
def charsPfx : List Char → List Char → Bool
  | [], _ => true
  | _ :: _, [] => false
  | a :: as, b :: bs => decide (a = b) && charsPfx as bs

/-- Boolean substring search on character lists. -/
def charsSub (needle : List Char) : List Char → Bool
  | [] => charsPfx needle []
  | c :: rest => charsPfx needle (c :: rest) || charsSub needle rest

/-- `needle` occurs contiguously inside `hay`. -/
def strContains (hay needle : String) : Bool :=
  charsSub needle.data hay.data

/-- Modelled from the spec: the schema check performed by
`datapackage.Package` (an external library) at descriptor construction —
"required fields present, internally consistent resource list".  Each
resource entry must carry a non-empty `name` and a `path`; every
violation is collected. -/
def packageErrors (resources : List ResourceEntry) : List String :=
  resources.filterMap (fun r =>
    if r.name = "" then some "resource is missing a name"
    else if r.path = Option.none then
      some ("resource " ++ r.name ++ " is missing a path")
    else Option.none)

/-- The per-violation lines of the aggregate message built by
`DatapackageDescriptor._validate_datapackage`. -/
def errLines : List String → String
  | [] => ""
  | e :: rest => "  * " ++ e ++ "\n" ++ errLines rest

/-- The aggregate `ValueError` message of `_validate_datapackage`:
`"Found {n} datapackage validation errors:\n"` followed by one
`"  * {e}\n"` line per violation. -/
def aggregateMsg (errs : List String) : String :=
  "Found " ++ toString errs.length ++ " datapackage validation errors:\n"
    ++ errLines errs

/-- `DatapackageDescriptor.__init__`: store the fields and validate the
manifest, raising the single aggregate `ValueError` when invalid. -/
def mkDescriptor (resources : List ResourceEntry) (dataset doi : String) :
    Except String DatapackageDescriptor :=
  match packageErrors resources with
  | [] => Except.ok (DatapackageDescriptor.mk resources dataset doi)
  | e :: rest => Except.error (aggregateMsg (e :: rest))

/-- One entry of a Zenodo deposition's file listing: the `filename` and
the `links.download` URL. -/
structure FileEntry where
  filename : String
  download : String
deriving DecidableEq

/-- The static per-backend configuration of a `ZenodoFetcher`: the
dataset-to-DOI table and the API root. -/
structure ZEnv where
  dataset_to_doi : List (String × String)
  api_root : String

/-- The network as an oracle: the parsed JSON file listing served at a
deposition URL and the parsed manifest served at a download link.
Responses are taken to be successful here; transport failures are the
subject of the `fetch_from_url` model. -/
structure ZOracle where
  listing : String → List FileEntry
  manifest : String → List ResourceEntry

/-- The mutable state of a `ZenodoFetcher`: the DOI-keyed descriptor memo
(`_descriptor_cache`) and a log of the URLs fetched over the network. -/
structure ZFState where
  descCache : List (String × DatapackageDescriptor)
  urlLog : List String
deriving DecidableEq

/-- The failure modes of `ZenodoFetcher.get_descriptor`: `KeyError` for
an unknown dataset, `ValueError` from URL construction or manifest
validation, and `RuntimeError` for a release without a
`datapackage.json`. -/
inductive ZErr where
  | keyError (msg : String) : ZErr
  | valueError (msg : String) : ZErr
  | runtimeError (msg : String) : ZErr
deriving DecidableEq

/-- The tail following the first occurrence of a marker in a character
list, or `Option.none` when the marker never occurs. -/
def findAfterMarker (marker : List Char) : List Char → Option (List Char)
  | [] => Option.none
  | c :: rest =>
      if charsPfx marker (c :: rest) then some ((c :: rest).drop marker.length)
      else findAfterMarker marker rest

/-- The digits captured by `re.search(r"zenodo.([\d]+)", doi)`: the run
of digits (at least one) after the first occurrence of `"zenodo."`.  (The
regex dot would also accept a separator other than a period; the DOIs in
the static tables all use a literal period.) -/
def extractZenodoId (doi : String) : Option String :=
  match findAfterMarker "zenodo.".data doi.data with
  | Option.none => Option.none
  | some rest =>
      let digits := rest.takeWhile Char.isDigit
      if digits = [] then Option.none else some (String.mk digits)

/-- `ZenodoFetcher._doi_to_url`: the deposition URL for a DOI, or
`ValueError` for a DOI without a Zenodo id. -/
def doi_to_url (env : ZEnv) (doi : String) : Except String String :=
  match extractZenodoId doi with
  | some zid => Except.ok (env.api_root ++ "/deposit/depositions/" ++ zid)
  | Option.none => Except.error ("Invalid doi " ++ doi)

/-- `ZenodoFetcher.get_descriptor`: resolve the dataset to a DOI
(`KeyError` when absent or falsy), return the memoized descriptor when
the DOI is cached; otherwise fetch the deposition's file listing, locate
the first file named `datapackage.json` (`RuntimeError` when none),
fetch and parse it, construct the (validated) descriptor and memoize it
keyed by DOI. -/
def ZenodoFetcher.get_descriptor (env : ZEnv) (o : ZOracle) (st : ZFState)
    (dataset : String) : Except ZErr DatapackageDescriptor × ZFState :=
  match alget env.dataset_to_doi dataset with
  | Option.none =>
      (Except.error (ZErr.keyError ("No doi found for dataset " ++ dataset)),
        st)
  | some doi =>
      if doi = "" then
        (Except.error (ZErr.keyError ("No doi found for dataset " ++ dataset)),
          st)
      else
        match alget st.descCache doi with
        | some d => (Except.ok d, st)
        | Option.none =>
            match doi_to_url env doi with
            | Except.error msg => (Except.error (ZErr.valueError msg), st)
            | Except.ok url =>
                let st1 := ZFState.mk st.descCache (st.urlLog ++ [url])
                match (o.listing url).find?
                    (fun f => decide (f.filename = "datapackage.json")) with
                | Option.none =>
                    (Except.error (ZErr.runtimeError
                      ("Zenodo datapackage for " ++ dataset ++ "/" ++ doi
                        ++ " does not contain valid datapackage.json")), st1)
                | some f =>
                    let st2 := ZFState.mk st1.descCache
                      (st1.urlLog ++ [f.download])
                    match mkDescriptor (o.manifest f.download) dataset doi with
                    | Except.error msg =>
                        (Except.error (ZErr.valueError msg), st2)
                    | Except.ok d =>
                        (Except.ok d,
                          ZFState.mk ((doi, d) :: st2.descCache) st2.urlLog)

/-- An HTTP response: status code and body text. -/
structure HttpResponse where
  status : Nat
  body : String
deriving DecidableEq

/-- The retryable statuses configured on the fetcher's `HTTPAdapter`:
`status_forcelist=[429, 500, 502, 503, 504]`. -/
def statusForcelist : List Nat := [429, 500, 502, 503, 504]

/-- Modelled from the spec: the urllib3 `Retry(total=3, backoff_factor=2,
status_forcelist=...)` transport mounted on the fetcher's session — a
response whose status is in the forcelist is retried while budget
remains; any other response, or the response once the budget is spent, is
final.  Attempts are an oracle indexed by attempt number; backoff timing
is not modelled. -/
def retryGet (responses : Nat → HttpResponse) : Nat → Nat → HttpResponse
  | attempt, 0 => responses attempt
  | attempt, budget + 1 =>
      let r := responses attempt
      if r.status ∈ statusForcelist then retryGet responses (attempt + 1) budget
      else r

/-- The final response `self.http.get` delivers under the configured
3-retry budget. -/
def sessionGet (responses : Nat → HttpResponse) : HttpResponse :=
  retryGet responses 0 3

/-- `ZenodoFetcher._fetch_from_url`: return the response when its status
is `requests.codes.ok` (200); otherwise raise
`ValueError(f"Could not download {url}: {response.text}")`. -/
def fetch_from_url (responses : Nat → HttpResponse) (url : String) :
    Except String HttpResponse :=
  let r := sessionGet responses
  if r.status = 200 then Except.ok r
  else Except.error ("Could not download " ++ url ++ ": " ++ r.body)

/-- Concrete fetcher environment for witnesses. -/
def zenvW : ZEnv := ZEnv.mk [("eia860", "zenodo.1")] "api"

/-- Concrete network oracle for witnesses: one release file named
`datapackage.json` and a well-formed one-resource manifest behind it. -/
def zoracleW : ZOracle :=
  ZOracle.mk (fun _ => [FileEntry.mk "datapackage.json" "dl"])
    (fun _ => [ResourceEntry.mk "r1" (some "p") Option.none []])

/-- The descriptor the witness fetch constructs. -/
def descW : DatapackageDescriptor :=
  DatapackageDescriptor.mk
    [ResourceEntry.mk "r1" (some "p") Option.none []] "eia860" "zenodo.1"

/-- The fetcher state after the witness's first successful fetch. -/
def zstW : ZFState :=
  ZFState.mk [("zenodo.1", descW)] ["api/deposit/depositions/1", "dl"]

/-- A descriptor with exactly one declared resource. -/
def oneEntryDesc : DatapackageDescriptor :=
  DatapackageDescriptor.mk
    [ResourceEntry.mk "r1" (some "p") Option.none []] "ds" "doi"

/-- A descriptor with two declared resources of distinct names. -/
def twoEntryDesc : DatapackageDescriptor :=
  DatapackageDescriptor.mk
    [ResourceEntry.mk "r1" (some "p1") Option.none [],
     ResourceEntry.mk "r2" (some "p2") Option.none []] "ds" "doi"

mutual
/-- A JSON value as parsed from `datapackage.json`: null, boolean,
integer, string, array or object; objects keep their key insertion
order. -/
inductive JVal where
  | jnull : JVal
  | jbool (b : Bool) : JVal
  | jnum (n : Int) : JVal
  | jstr (s : String) : JVal
  | jarr (xs : JList) : JVal
  | jobj (kvs : JObj) : JVal
deriving DecidableEq

inductive JList where
  | jnil : JList
  | jcons (v : JVal) (tl : JList) : JList
deriving DecidableEq

inductive JObj where
  | onil : JObj
  | ocons (k : String) (v : JVal) (tl : JObj) : JObj
deriving DecidableEq
end

/-- Object members as a list of pairs. -/
def toListO : JObj → List (String × JVal)
  | JObj.onil => []
  | JObj.ocons k v tl => (k, v) :: toListO tl

/-- Inverse of `toListO`. -/
def ofListO : List (String × JVal) → JObj
  | [] => JObj.onil
  | (k, v) :: rest => JObj.ocons k v (ofListO rest)

/-- Code-point lexicographic order on character lists, the order Python's
`sorted` uses on the strings compared by `json.dumps(sort_keys=True)`. -/
def charsLe : List Char → List Char → Bool
  | [], _ => true
  | _ :: _, [] => false
  | a :: as, b :: bs => if a = b then charsLe as bs else decide (a < b)

/-- Key order on object members: lexicographic on the keys. -/
def keyLe (a b : String × JVal) : Prop :=
  charsLe a.1.data b.1.data = true

instance keyLeDec : DecidableRel keyLe := fun a b =>
  inferInstanceAs (Decidable (charsLe a.1.data b.1.data = true))

/-- Strict key order: the keys differ and compare at most. -/
def keyLt (a b : String × JVal) : Prop :=
  keyLe a b ∧ a.1 ≠ b.1

/-- Sorting the members of one object level by key (Python
`sorted(dict.items())` under `sort_keys=True`). -/
def sortPairs (l : List (String × JVal)) : List (String × JVal) :=
  List.insertionSort keyLe l

mutual
/-- The recursively key-sorted form of a JSON tree; `sort_keys=True`
serializes exactly this form. -/
def canonV : JVal → JVal
  | JVal.jnull => JVal.jnull
  | JVal.jbool b => JVal.jbool b
  | JVal.jnum n => JVal.jnum n
  | JVal.jstr s => JVal.jstr s
  | JVal.jarr xs => JVal.jarr (canonL xs)
  | JVal.jobj kvs => JVal.jobj (ofListO (sortPairs (toListO (canonO kvs))))
termination_by structural v => v

def canonL : JList → JList
  | JList.jnil => JList.jnil
  | JList.jcons v tl => JList.jcons (canonV v) (canonL tl)
termination_by structural l => l

def canonO : JObj → JObj
  | JObj.onil => JObj.onil
  | JObj.ocons k v tl => JObj.ocons k (canonV v) (canonO tl)
termination_by structural o => o
end

/-- Sorting the canonical values into one object level's members. -/
def mapVals (l : List (String × JVal)) : List (String × JVal) :=
  l.map (fun p => (p.1, canonV p.2))

/-- Four spaces per indent level (`indent=4`). -/
def pad (n : Nat) : String := String.mk (List.replicate (4 * n) ' ')

/-- Modelled from the spec: the JSON string escaping of Python's
`json.dumps` for the characters that need it; other characters are
emitted as-is. -/
def jEscapeChar (c : Char) : List Char :=
  if c = '\\' then ['\\', '\\']
  else if c = '"' then ['\\', '"']
  else if c = '\n' then ['\\', 'n']
  else [c]

/-- A JSON string literal. -/
def jString (s : String) : String :=
  "\"" ++ String.mk ((s.data.map jEscapeChar).flatten) ++ "\""

mutual
/-- Modelled from the spec: the printer of Python
`json.dumps(indent=4)` — objects and arrays open on their own line, items
are separated by `",\n"`, keys by `": "`, each level indented four more
spaces.  `get_json_string` composes it with the recursive key sort, which
is exactly `sort_keys=True`. -/
def dumpV : JVal → Nat → String
  | JVal.jnull, _ => "null"
  | JVal.jbool true, _ => "true"
  | JVal.jbool false, _ => "false"
  | JVal.jnum n, _ => toString n
  | JVal.jstr s, _ => jString s
  | JVal.jarr JList.jnil, _ => "[]"
  | JVal.jarr (JList.jcons v tl), ind =>
      "[\n" ++ pad (ind + 1) ++ dumpV v (ind + 1) ++ dumpL tl (ind + 1)
        ++ "\n" ++ pad ind ++ "]"
  | JVal.jobj JObj.onil, _ => "\x7b\x7d"
  | JVal.jobj (JObj.ocons k v tl), ind =>
      "\x7b\n" ++ pad (ind + 1) ++ jString k ++ ": " ++ dumpV v (ind + 1)
        ++ dumpO tl (ind + 1) ++ "\n" ++ pad ind ++ "\x7d"
termination_by structural v => v

def dumpL : JList → Nat → String
  | JList.jnil, _ => ""
  | JList.jcons v tl, ind =>
      ",\n" ++ pad ind ++ dumpV v ind ++ dumpL tl ind
termination_by structural l => l

def dumpO : JObj → Nat → String
  | JObj.onil, _ => ""
  | JObj.ocons k v tl, ind =>
      ",\n" ++ pad ind ++ jString k ++ ": " ++ dumpV v ind ++ dumpO tl ind
termination_by structural o => o
end

/-- `DatapackageDescriptor.get_json_string`:
`json.dumps(self.datapackage_json, sort_keys=True, indent=4)`. -/
def get_json_string (j : JVal) : String :=
  dumpV (canonV j) 0

/-!  Theorems. -/

/-- Reading back the key just written. -/
theorem cacheGet_set_self (c : List (PudlResourceKey × Bytes))
    (k : PudlResourceKey) (b : Bytes) :
    cacheGet (cacheSet c k b) k = some b := by
  simp [cacheGet, cacheSet, alget]

/-- `alget` ignores entries removed by filtering out a different key. -/
theorem alget_filter_ne (k k' : PudlResourceKey) (h : k ≠ k') :
    ∀ c : List (PudlResourceKey × Bytes),
      alget (c.filter (fun p => decide (p.1 ≠ k))) k' = alget c k' := by
  intro c
  induction c with
  | nil => rfl
  | cons p rest ih =>
      simp only [ne_eq, decide_not] at ih
      cases p with
      | mk a v =>
          by_cases hp : a = k
          · subst hp
            simp [alget, List.filter_cons, h, ih]
          · by_cases hp' : a = k'
            · subst hp'
              simp [alget, List.filter_cons, hp, ih]
            · simp [alget, List.filter_cons, hp, hp', ih]

/-- Writing one key leaves every other key's cached value unchanged. -/
theorem cacheGet_set_ne (c : List (PudlResourceKey × Bytes))
    (k k' : PudlResourceKey) (b : Bytes) (h : k ≠ k') :
    cacheGet (cacheSet c k b) k' = cacheGet c k' := by
  show (if k = k' then some b
    else alget (c.filter (fun p => decide (p.1 ≠ k))) k') = alget c k'
  rw [if_neg h, alget_filter_ne k k' h c]

/-- The first components of the streamed pairs are exactly the matching
keys, in order. -/
theorem runResources_fst (fetcher : PudlResourceKey → Bytes) :
    ∀ (keys : List PudlResourceKey) (st : DSState),
      ((runResources fetcher keys st).1.map Prod.fst) = keys := by
  intro keys
  induction keys with
  | nil => intro st; rfl
  | cons k ks ih =>
      intro st
      cases hc : cacheGet st.cache k with
      | some b => simp [runResources, fetchOne, hc, ih]
      | none => simp [runResources, fetchOne, hc, ih]

/-- Taking `n` items from the generator equals running it over the first
`n` keys: the generator is lazy. -/
theorem runResourcesTake_eq (fetcher : PudlResourceKey → Bytes) :
    ∀ (n : Nat) (keys : List PudlResourceKey) (st : DSState),
      runResourcesTake fetcher n keys st
        = runResources fetcher (keys.take n) st := by
  intro n
  induction n with
  | zero => intro keys st; cases keys <;> rfl
  | succ m ih =>
      intro keys st
      cases keys with
      | nil => rfl
      | cons k ks =>
          cases hc : cacheGet st.cache k with
          | some b => simp [runResourcesTake, runResources, fetchOne, hc, ih]
          | none => simp [runResourcesTake, runResources, fetchOne, hc, ih]

/-- With no name and no filters the enumeration is a plain map over the
declared entries. -/
theorem get_resources_eq_map (d : DatapackageDescriptor) :
    d.get_resources Option.none [] =
      d.resources.map (fun r => PudlResourceKey.mk d.dataset d.doi r.name) := by
  unfold DatapackageDescriptor.get_resources
  have hfun : (fun r : ResourceEntry =>
      if skipByName Option.none r.name then Option.none
      else if matchesFilters r [] then
        some (PudlResourceKey.mk d.dataset d.doi r.name)
      else Option.none)
      = (some ∘ fun r => PudlResourceKey.mk d.dataset d.doi r.name) := by
    funext r
    simp [skipByName, matchesFilters]
  rw [hfun, List.filterMap_eq_map]

/-- Claim C3: calling `DatapackageDescriptor.get_resources` with no name
and no filters yields a `PudlResourceKey` for every declared entry of the
manifest's `resources` list exactly once, in the original manifest order,
with no re-sorting or deduplication. -/
theorem get_resources_no_filters (d : DatapackageDescriptor) :
    d.get_resources Option.none [] =
      d.resources.map (fun r => PudlResourceKey.mk d.dataset d.doi r.name) :=
  get_resources_eq_map d

/-- Claim C4: partition-filter matching holds iff for each filter pair
`(k, v)` we have `str(parts.get(k)) == str(v)`; a missing partition key is
coerced to the string `"None"`, so a filter value equal to the string
`"None"` matches an entry that lacks that partition key entirely. -/
theorem matches_str_coercion (r : ResourceEntry)
    (filters : List (String × PyVal)) :
    (matchesFilters r filters = true ↔
      ∀ kv ∈ filters, pyStr (pyDictGet r.parts kv.1) = pyStr kv.2)
  ∧ (∀ (parts : List (String × PyVal)) (k : String),
      alget parts k = Option.none → pyStr (pyDictGet parts k) = "None")
  ∧ (∀ k : String, alget r.parts k = Option.none →
      matchesFilters r [(k, PyVal.pyStrV "None")] = true) := by
  refine ⟨?_, ?_, ?_⟩
  · simp [matchesFilters, List.all_eq_true]
  · intro parts k h
    simp [pyDictGet, h, pyStr]
  · intro k h
    simp [matchesFilters, pyDictGet, h, pyStr]

/-- Witness for C4: the `"None"`-filter spuriously matches an entry whose
`parts` dict is empty. -/
theorem matches_str_coercion_witness :
    matchesFilters (ResourceEntry.mk "r1" (some "p") Option.none [])
      [("year", PyVal.pyStrV "None")] = true :=
  (matches_str_coercion (ResourceEntry.mk "r1" (some "p") Option.none []) []).2.2
    "year" rfl

/-- Counterexample to claim C5: on an entry whose `remote_url` field is
present (with value `""`), `get_resource_path` returns the static path
`"p"`, not the present `remote_url` — the code tests Python truthiness
(`or`), not field presence. -/
theorem get_resource_path_presence_refuted :
    emptyRemoteEntry.remote_url.isSome = true ∧
    emptyRemoteDesc.get_resource_path "r1" = Except.ok (some "p") ∧
    some "p" ≠ emptyRemoteEntry.remote_url := by
  refine ⟨rfl, rfl, ?_⟩
  simp [emptyRemoteEntry]

/-- Claim C5 (amended): `get_resource_path` resolves the first entry
carrying the requested name: it returns `remote_url` whenever that field
is present *and truthy* (non-empty), otherwise the static `path`; when no
entry with the given name exists it fails with the `KeyError` message. -/
theorem get_resource_path_spec (d : DatapackageDescriptor) (name : String) :
    ((∀ r ∈ d.resources, r.name ≠ name) →
      d.get_resource_path name =
        Except.error ("Resource " ++ name ++ " not found for "
          ++ d.dataset ++ "/" ++ d.doi))
  ∧ (∀ pre r post, d.resources = pre ++ r :: post → r.name = name →
      (∀ r' ∈ pre, r'.name ≠ name) →
      d.get_resource_path name = Except.ok (pyOr r.remote_url r.path))
  ∧ (∀ (p : Option String) (s : String), s ≠ "" →
      pyOr (some s) p = some s)
  ∧ (∀ p : Option String, pyOr Option.none p = p ∧ pyOr (some "") p = p) := by
  refine ⟨?_, ?_, ?_, ?_⟩
  · intro h
    unfold DatapackageDescriptor.get_resource_path
    rw [List.find?_eq_none.mpr]
    intro r hr
    simp [h r hr]
  · intro pre r post hsplit hname hpre
    unfold DatapackageDescriptor.get_resource_path
    rw [hsplit, List.find?_append, List.find?_eq_none.mpr, Option.none_or,
      List.find?_cons_of_pos]
    · simp [hname]
    · intro r' hr'
      simp [hpre r' hr']
  · intro p s hs
    simp [pyOr, hs]
  · intro p
    simp [pyOr]

/-- Claim C1: `Datastore.get_resources` yields one `(PudlResourceKey,
bytes)` pair per matching resource, in manifest order; on a cache hit the
per-key step yields the cached bytes without contacting the network and
without touching the state; on a miss it fetches the bytes via the
ZenodoFetcher, writes them into the cache with `cache.set`, logs the
network fetch, and yields them; and the stream is lazy: consuming `n`
items performs exactly the effects of the first `n` matching keys. -/
theorem datastore_get_resources_spec (desc : DatapackageDescriptor)
    (fetcher : PudlResourceKey → Bytes) (filters : List (String × PyVal))
    (st : DSState) :
    ((Datastore.get_resources desc fetcher filters st).1.map Prod.fst
      = desc.get_resources Option.none filters)
  ∧ (∀ (st0 : DSState) (k : PudlResourceKey) (b : Bytes),
      cacheGet st0.cache k = some b → fetchOne fetcher st0 k = ((k, b), st0))
  ∧ (∀ (st0 : DSState) (k : PudlResourceKey),
      cacheGet st0.cache k = Option.none →
      fetchOne fetcher st0 k =
        ((k, fetcher k),
          DSState.mk (cacheSet st0.cache k (fetcher k)) (st0.fetchLog ++ [k])))
  ∧ (∀ n : Nat,
      runResourcesTake fetcher n (desc.get_resources Option.none filters) st
        = runResources fetcher
            ((desc.get_resources Option.none filters).take n) st) := by
  refine ⟨runResources_fst fetcher _ st, ?_, ?_,
    fun n => runResourcesTake_eq fetcher n _ st⟩
  · intro st0 k b h
    simp [fetchOne, h]
  · intro st0 k h
    simp [fetchOne, h]

/-- Witness for C1: a concrete cache hit yields the cached bytes and
leaves the state unchanged; a concrete miss fetches, writes the cache and
logs the fetch. -/
theorem datastore_get_resources_spec_witness :
    fetchOne (fun _ => [9])
      (DSState.mk [(PudlResourceKey.mk "ds" "doi" "r1", [1, 2])] [])
      (PudlResourceKey.mk "ds" "doi" "r1")
      = ((PudlResourceKey.mk "ds" "doi" "r1", [1, 2]),
          DSState.mk [(PudlResourceKey.mk "ds" "doi" "r1", [1, 2])] [])
  ∧ fetchOne (fun _ => [9]) (DSState.mk [] [])
      (PudlResourceKey.mk "ds" "doi" "r2")
      = ((PudlResourceKey.mk "ds" "doi" "r2", [9]),
          DSState.mk (cacheSet [] (PudlResourceKey.mk "ds" "doi" "r2") [9])
            [PudlResourceKey.mk "ds" "doi" "r2"]) :=
  ⟨(datastore_get_resources_spec oneEntryDesc (fun _ => [9]) []
      (DSState.mk [] [])).2.1
      (DSState.mk [(PudlResourceKey.mk "ds" "doi" "r1", [1, 2])] [])
      (PudlResourceKey.mk "ds" "doi" "r1") [1, 2] rfl,
   (datastore_get_resources_spec oneEntryDesc (fun _ => [9]) []
      (DSState.mk [] [])).2.2.1
      (DSState.mk [] []) (PudlResourceKey.mk "ds" "doi" "r2") rfl⟩

/-- Claim C2: `Datastore.get_unique_resource` raises the not-found
`KeyError` when zero resources match, raises the multiple-resources
`KeyError` when two or more match, and returns the bytes of the single
matching resource when exactly one matches. -/
theorem get_unique_resource_spec (desc : DatapackageDescriptor)
    (fetcher : PudlResourceKey → Bytes) (filters : List (String × PyVal))
    (st : DSState) :
    (desc.get_resources Option.none filters = [] →
      (Datastore.get_unique_resource desc fetcher filters st).1
        = Except.error (LookupErr.notFound
            ("No resources found for " ++ desc.dataset)))
  ∧ (∀ k, desc.get_resources Option.none filters = [k] →
      (Datastore.get_unique_resource desc fetcher filters st).1
        = Except.ok (fetchOne fetcher st k).1.2)
  ∧ (∀ k1 k2 rest,
      desc.get_resources Option.none filters = k1 :: k2 :: rest →
      (Datastore.get_unique_resource desc fetcher filters st).1
        = Except.error (LookupErr.ambiguous
            ("Multiple resources found for " ++ desc.dataset))) := by
  refine ⟨?_, ?_, ?_⟩
  · intro h
    simp [Datastore.get_unique_resource, h]
  · intro k h
    simp [Datastore.get_unique_resource, h]
  · intro k1 k2 rest h
    simp [Datastore.get_unique_resource, h]

/-- Witness for C2: with exactly one matching resource and an empty cache
the call returns the fetched bytes. -/
theorem get_unique_resource_spec_witness :
    (Datastore.get_unique_resource oneEntryDesc (fun _ => [3, 4]) []
        (DSState.mk [] [])).1 = Except.ok [3, 4] :=
  (get_unique_resource_spec oneEntryDesc (fun _ => [3, 4]) []
      (DSState.mk [] [])).2.1 (PudlResourceKey.mk "ds" "doi" "r1") rfl

/-- Claim C10: when `get_unique_resource` fails with the ambiguity error
it is not side-effect-free: it has already run the cache-or-fetch step for
the first two matching resources, and when both were (distinct) cache
misses their fetched bytes have been written into the layered cache and
both network fetches logged — the cache state changes although the call
reports an error. -/
theorem get_unique_resource_ambiguous_effects (desc : DatapackageDescriptor)
    (fetcher : PudlResourceKey → Bytes) (filters : List (String × PyVal))
    (st : DSState) :
    ∀ k1 k2 rest,
      desc.get_resources Option.none filters = k1 :: k2 :: rest →
      ((Datastore.get_unique_resource desc fetcher filters st).1
          = Except.error (LookupErr.ambiguous
              ("Multiple resources found for " ++ desc.dataset)))
    ∧ ((Datastore.get_unique_resource desc fetcher filters st).2
          = (fetchOne fetcher (fetchOne fetcher st k1).2 k2).2)
    ∧ (k1 ≠ k2 → cacheGet st.cache k1 = Option.none →
        cacheGet st.cache k2 = Option.none →
        cacheGet (Datastore.get_unique_resource desc fetcher filters st).2.cache
            k1 = some (fetcher k1)
        ∧ cacheGet (Datastore.get_unique_resource desc fetcher filters st).2.cache
            k2 = some (fetcher k2)
        ∧ (Datastore.get_unique_resource desc fetcher filters st).2.fetchLog
            = st.fetchLog ++ [k1] ++ [k2]) := by
  intro k1 k2 rest h
  have e2 : (Datastore.get_unique_resource desc fetcher filters st).2
      = (fetchOne fetcher (fetchOne fetcher st k1).2 k2).2 := by
    simp [Datastore.get_unique_resource, h]
  refine ⟨by simp [Datastore.get_unique_resource, h], e2, ?_⟩
  intro hne h1 h2
  have hst1 : (fetchOne fetcher st k1).2
      = DSState.mk (cacheSet st.cache k1 (fetcher k1)) (st.fetchLog ++ [k1]) := by
    simp [fetchOne, h1]
  have h2' : cacheGet (cacheSet st.cache k1 (fetcher k1)) k2 = Option.none := by
    rw [cacheGet_set_ne st.cache k1 k2 (fetcher k1) hne]
    exact h2
  have hst2 : (fetchOne fetcher (fetchOne fetcher st k1).2 k2).2
      = DSState.mk
          (cacheSet (cacheSet st.cache k1 (fetcher k1)) k2 (fetcher k2))
          ((st.fetchLog ++ [k1]) ++ [k2]) := by
    rw [hst1]
    simp [fetchOne, h2']
  rw [e2, hst2]
  refine ⟨?_, ?_, ?_⟩
  · show cacheGet (cacheSet (cacheSet st.cache k1 (fetcher k1)) k2 (fetcher k2))
        k1 = some (fetcher k1)
    rw [cacheGet_set_ne _ k2 k1 _ (Ne.symm hne), cacheGet_set_self]
  · exact cacheGet_set_self _ k2 (fetcher k2)
  · show (st.fetchLog ++ [k1]) ++ [k2] = st.fetchLog ++ [k1] ++ [k2]
    rfl

/-- Witness for C10: with two distinct matching resources and an empty
cache the erroring call has cached both fetched blobs and logged both
network fetches. -/
theorem get_unique_resource_ambiguous_effects_witness :
    cacheGet (Datastore.get_unique_resource twoEntryDesc (fun _ => [5]) []
        (DSState.mk [] [])).2.cache (PudlResourceKey.mk "ds" "doi" "r1")
      = some [5]
  ∧ (Datastore.get_unique_resource twoEntryDesc (fun _ => [5]) []
        (DSState.mk [] [])).2.fetchLog
      = [PudlResourceKey.mk "ds" "doi" "r1", PudlResourceKey.mk "ds" "doi" "r2"] :=
  ⟨((get_unique_resource_ambiguous_effects twoEntryDesc (fun _ => [5]) []
      (DSState.mk [] []) (PudlResourceKey.mk "ds" "doi" "r1")
      (PudlResourceKey.mk "ds" "doi" "r2") [] rfl).2.2
      (by decide) rfl rfl).1,
   ((get_unique_resource_ambiguous_effects twoEntryDesc (fun _ => [5]) []
      (DSState.mk [] []) (PudlResourceKey.mk "ds" "doi" "r1")
      (PudlResourceKey.mk "ds" "doi" "r2") [] rfl).2.2
      (by decide) rfl rfl).2.2⟩

/-- Witness for C5 (amended): concrete resolution where a non-empty
`remote_url` wins over the static path. -/
theorem get_resource_path_spec_witness :
    (DatapackageDescriptor.mk
        [ResourceEntry.mk "r1" (some "http://x/r1") (some "http://y/r1") []]
        "ds" "doi").get_resource_path "r1" = Except.ok (some "http://y/r1") :=
  (get_resource_path_spec
    (DatapackageDescriptor.mk
      [ResourceEntry.mk "r1" (some "http://x/r1") (some "http://y/r1") []]
      "ds" "doi") "r1").2.1 []
    (ResourceEntry.mk "r1" (some "http://x/r1") (some "http://y/r1") []) []
    rfl rfl (by intro r' hr'; simp at hr')

/-- A character-list initial segment survives appending a suffix. -/
theorem charsPfx_append (n : List Char) :
    ∀ (l t : List Char), charsPfx n l = true → charsPfx n (l ++ t) = true := by
  induction n with
  | nil => intro l t _; rfl
  | cons a as ih =>
      intro l t h
      cases l with
      | nil => simp [charsPfx] at h
      | cons b bs =>
          simp [charsPfx] at h ⊢
          exact ⟨h.1, ih bs t h.2⟩

/-- A list is an initial segment of itself followed by anything. -/
theorem charsPfx_self_append : ∀ (n t : List Char),
    charsPfx n (n ++ t) = true := by
  intro n
  induction n with
  | nil => intro t; rfl
  | cons a as ih => intro t; simp [charsPfx, ih]

/-- The empty needle occurs in every haystack. -/
theorem charsSub_nil_needle : ∀ t : List Char, charsSub [] t = true := by
  intro t
  cases t <;> simp [charsSub, charsPfx]

/-- A needle occurs at the head of itself followed by anything. -/
theorem charsSub_here : ∀ (n t : List Char), charsSub n (n ++ t) = true := by
  intro n t
  cases n with
  | nil => exact charsSub_nil_needle t
  | cons a as =>
      show charsSub (a :: as) (a :: (as ++ t)) = true
      have : charsPfx (a :: as) (a :: (as ++ t)) = true :=
        charsPfx_self_append (a :: as) t
      simp [charsSub, this]

/-- Occurrence survives prepending one character. -/
theorem charsSub_cons (n : List Char) (c : Char) (l : List Char)
    (h : charsSub n l = true) : charsSub n (c :: l) = true := by
  simp [charsSub, h]

/-- Occurrence survives prepending any list. -/
theorem charsSub_append_left (n : List Char) :
    ∀ (pre l : List Char), charsSub n l = true →
      charsSub n (pre ++ l) = true := by
  intro pre
  induction pre with
  | nil => intro l h; exact h
  | cons c cs ih =>
      intro l h
      show charsSub n (c :: (cs ++ l)) = true
      exact charsSub_cons n c (cs ++ l) (ih l h)

/-- Occurrence survives appending any list. -/
theorem charsSub_append_right (n : List Char) :
    ∀ (l t : List Char), charsSub n l = true →
      charsSub n (l ++ t) = true := by
  intro l
  induction l with
  | nil =>
      intro t h
      cases n with
      | nil => exact charsSub_nil_needle t
      | cons a as => simp [charsSub, charsPfx] at h
  | cons c cs ih =>
      intro t h
      have hsplit : charsPfx n (c :: cs) = true ∨ charsSub n cs = true := by
        simpa [charsSub, Bool.or_eq_true] using h
      show charsSub n (c :: (cs ++ t)) = true
      cases hsplit with
      | inl hp =>
          have h2 := charsPfx_append n (c :: cs) t hp
          rw [List.cons_append] at h2
          simp [charsSub, h2]
      | inr hs =>
          simp [charsSub, ih t hs]

/-- `String.append` concatenates the underlying character lists. -/
theorem string_data_append (a b : String) :
    (a ++ b).data = a.data ++ b.data := rfl

/-- A string occurs in any concatenation that embeds it in the middle. -/
theorem strContains_middle (pre mid post : String) :
    strContains (pre ++ mid ++ post) mid = true := by
  show charsSub mid.data ((pre ++ mid ++ post).data) = true
  rw [string_data_append, string_data_append, List.append_assoc]
  exact charsSub_append_left mid.data pre.data (mid.data ++ post.data)
    (charsSub_here mid.data post.data)

/-- Every listed violation occurs verbatim in the `errLines` block. -/
theorem errLines_contains (e : String) :
    ∀ errs : List String, e ∈ errs → strContains (errLines errs) e = true := by
  intro errs
  induction errs with
  | nil => intro h; simp at h
  | cons x rest ih =>
      intro h
      show charsSub e.data (("  * " ++ x ++ "\n" ++ errLines rest).data) = true
      rw [string_data_append, string_data_append, string_data_append]
      rcases List.mem_cons.mp h with he | hrest
      · subst he
        rw [List.append_assoc, List.append_assoc]
        exact charsSub_append_left e.data "  * ".data _
          (charsSub_here e.data ("\n".data ++ (errLines rest).data))
      · exact charsSub_append_left e.data _ _ (ih hrest)

/-- Every violation in the list occurs verbatim in the aggregate
`ValueError` message. -/
theorem aggregateMsg_contains (e : String) (errs : List String)
    (h : e ∈ errs) : strContains (aggregateMsg errs) e = true := by
  show charsSub e.data ((aggregateMsg errs).data) = true
  unfold aggregateMsg
  rw [string_data_append]
  exact charsSub_append_left e.data _ _ (errLines_contains e errs h)

/-- A successful `get_descriptor` call leaves the descriptor memoized
under its DOI in the resulting state. -/
theorem get_descriptor_ok (env : ZEnv) (o : ZOracle) (st : ZFState)
    (dataset : String) (d : DatapackageDescriptor) (st' : ZFState)
    (hsucc : ZenodoFetcher.get_descriptor env o st dataset
      = (Except.ok d, st')) :
    ∃ doi, alget env.dataset_to_doi dataset = some doi ∧ ¬ doi = ""
      ∧ alget st'.descCache doi = some d := by
  simp only [ZenodoFetcher.get_descriptor] at hsucc
  split at hsucc
  · simp at hsucc
  next doi htab =>
    split at hsucc
    · simp at hsucc
    next hne =>
      split at hsucc
      next d0 hcache =>
        have hd : d0 = d := by
          have := congrArg Prod.fst hsucc
          simpa using this
        have hst : st = st' := by
          have := congrArg Prod.snd hsucc
          simpa using this
        exact ⟨doi, htab, hne, by rw [← hst, hcache, hd]⟩
      next hcache =>
        split at hsucc
        · simp at hsucc
        next url hurl =>
          split at hsucc
          · simp at hsucc
          next f hfind =>
            split at hsucc
            · simp at hsucc
            next d1 hmk =>
              have hd : d1 = d := by
                have := congrArg Prod.fst hsucc
                simpa using this
              have hst : ZFState.mk ((doi, d1) :: st.descCache)
                  ((st.urlLog ++ [url]) ++ [f.download]) = st' := by
                have := congrArg Prod.snd hsucc
                simpa using this
              refine ⟨doi, htab, hne, ?_⟩
              rw [← hst]
              simp [alget, hd]

/-- Claim C6: `ZenodoFetcher.get_descriptor` fails with `KeyError` for a
dataset name absent from the dataset-to-DOI table; when the release's
file listing contains no file named `datapackage.json` it raises
`RuntimeError`; on success it memoizes the descriptor keyed by DOI, so a
second call for the same dataset returns the same descriptor without
refetching (state, including the URL fetch log, unchanged). -/
theorem get_descriptor_spec (env : ZEnv) (o : ZOracle) (st : ZFState)
    (dataset : String) :
    (alget env.dataset_to_doi dataset = Option.none →
      ZenodoFetcher.get_descriptor env o st dataset
        = (Except.error (ZErr.keyError
            ("No doi found for dataset " ++ dataset)), st))
  ∧ (∀ doi url, alget env.dataset_to_doi dataset = some doi → doi ≠ "" →
      alget st.descCache doi = Option.none →
      doi_to_url env doi = Except.ok url →
      (∀ f ∈ o.listing url, f.filename ≠ "datapackage.json") →
      ZenodoFetcher.get_descriptor env o st dataset
        = (Except.error (ZErr.runtimeError
            ("Zenodo datapackage for " ++ dataset ++ "/" ++ doi
              ++ " does not contain valid datapackage.json")),
           ZFState.mk st.descCache (st.urlLog ++ [url])))
  ∧ (∀ d st',
      ZenodoFetcher.get_descriptor env o st dataset = (Except.ok d, st') →
      ZenodoFetcher.get_descriptor env o st' dataset = (Except.ok d, st')) := by
  refine ⟨?_, ?_, ?_⟩
  · intro h
    simp [ZenodoFetcher.get_descriptor, h]
  · intro doi url h hne hc hurl hnof
    have hfind : (o.listing url).find?
        (fun f => decide (f.filename = "datapackage.json")) = Option.none := by
      rw [List.find?_eq_none]
      intro f hf
      simp [hnof f hf]
    simp [ZenodoFetcher.get_descriptor, h, hne, hc, hurl, hfind]
  · intro d st' hsucc
    obtain ⟨doi, htab, hne, hcache⟩ :=
      get_descriptor_ok env o st dataset d st' hsucc
    simp [ZenodoFetcher.get_descriptor, htab, hne, hcache]

/-- Witness for C6: the second `get_descriptor` call for the same dataset
returns the memoized descriptor and leaves the state (and its URL log)
unchanged. -/
theorem get_descriptor_spec_witness :
    ZenodoFetcher.get_descriptor zenvW zoracleW zstW "eia860"
      = (Except.ok descW, zstW) :=
  (get_descriptor_spec zenvW zoracleW (ZFState.mk [] []) "eia860").2.2
    descW zstW rfl

/-- Counterexample to claim C7: a single non-retryable 404 with body "x"
raises `ValueError("Could not download u: x")` — the message carries the
response body but not the status code, so no error "carrying both the
response status code and the response body" is raised. -/
theorem fetch_error_lacks_status :
    fetch_from_url (fun _ => HttpResponse.mk 404 "x") "u"
      = Except.error "Could not download u: x"
  ∧ strContains "Could not download u: x" "404" = false
  ∧ strContains "Could not download u: x" "x" = true :=
  ⟨rfl, by decide, by decide⟩

/-- Claim C7 (amended): under the configured transport a retryable status
(429/500/502/503/504) is retried while budget remains and any other
status is final immediately; whenever the final response carries a
non-2xx status, the fetch raises `ValueError` whose message carries the
request URL and the response body — the status code is not included (see
the counterexample). -/
theorem fetch_from_url_spec (responses : Nat → HttpResponse)
    (url : String) :
    ((sessionGet responses).status < 200
        ∨ 300 ≤ (sessionGet responses).status →
      fetch_from_url responses url
        = Except.error ("Could not download " ++ url ++ ": "
            ++ (sessionGet responses).body))
  ∧ (∀ attempt budget, (responses attempt).status ∉ statusForcelist →
      retryGet responses attempt (budget + 1) = responses attempt)
  ∧ (∀ attempt budget, (responses attempt).status ∈ statusForcelist →
      retryGet responses attempt (budget + 1)
        = retryGet responses (attempt + 1) budget)
  ∧ (∀ attempt, retryGet responses attempt 0 = responses attempt) := by
  refine ⟨?_, ?_, ?_, fun attempt => rfl⟩
  · intro h
    have hne : ¬ (sessionGet responses).status = 200 := by
      rcases h with h | h <;> omega
    unfold fetch_from_url
    simp [hne]
  · intro attempt budget h
    simp [retryGet, h]
  · intro attempt budget h
    simp [retryGet, h]

/-- Witness for C7 (amended): persistent 503 responses exhaust the retry
budget and the fetch raises the `ValueError` carrying the body. -/
theorem fetch_from_url_spec_witness :
    fetch_from_url (fun _ => HttpResponse.mk 503 "b") "u"
      = Except.error "Could not download u: b" :=
  (fetch_from_url_spec (fun _ => HttpResponse.mk 503 "b") "u").1
    (Or.inr (by decide))

/-- Claim C9: every descriptor handed to a caller passed validation at
construction: `mkDescriptor` succeeds exactly when the validator reports
no violations and then stores the manifest unchanged; an invalid manifest
raises a single aggregate `ValueError` whose message reports every
detected violation together; and no method validates later — resource
enumeration is a pure function of the stored fields, defined for every
descriptor value. -/
theorem descriptor_validated_at_construction
    (resources : List ResourceEntry) (dataset doi : String) :
    (∀ d, mkDescriptor resources dataset doi = Except.ok d →
      packageErrors resources = []
        ∧ d = DatapackageDescriptor.mk resources dataset doi)
  ∧ (packageErrors resources ≠ [] →
      mkDescriptor resources dataset doi
        = Except.error (aggregateMsg (packageErrors resources)))
  ∧ (∀ e ∈ packageErrors resources,
      strContains (aggregateMsg (packageErrors resources)) e = true)
  ∧ (∀ d1 : DatapackageDescriptor, d1.get_resources Option.none []
      = d1.resources.map
          (fun r => PudlResourceKey.mk d1.dataset d1.doi r.name)) := by
  refine ⟨?_, ?_, fun e he => aggregateMsg_contains e _ he,
    fun d1 => get_resources_eq_map d1⟩
  · intro d h
    unfold mkDescriptor at h
    cases hpe : packageErrors resources with
    | nil =>
        rw [hpe] at h
        refine ⟨rfl, ?_⟩
        injection h with h1
        exact h1.symm
    | cons e rest =>
        rw [hpe] at h
        simp at h
  · intro hne
    unfold mkDescriptor
    cases hpe : packageErrors resources with
    | nil => exact absurd hpe hne
    | cons e rest => rfl

/-- Witness for C9: a manifest with a nameless entry and a pathless entry
fails construction with the aggregate message carrying both violations. -/
theorem descriptor_validated_at_construction_witness :
    mkDescriptor
        [ResourceEntry.mk "" Option.none Option.none [],
         ResourceEntry.mk "r" Option.none Option.none []] "ds" "doi"
      = Except.error (aggregateMsg
          ["resource is missing a name", "resource r is missing a path"])
  ∧ strContains
      (aggregateMsg
        ["resource is missing a name", "resource r is missing a path"])
      "resource r is missing a path" = true :=
  ⟨(descriptor_validated_at_construction
      [ResourceEntry.mk "" Option.none Option.none [],
       ResourceEntry.mk "r" Option.none Option.none []] "ds" "doi").2.1
      (by decide),
   (descriptor_validated_at_construction
      [ResourceEntry.mk "" Option.none Option.none [],
       ResourceEntry.mk "r" Option.none Option.none []] "ds" "doi").2.2.1
      "resource r is missing a path" (by decide)⟩

/-- `charsLe` is total. -/
theorem charsLe_total : ∀ as bs : List Char,
    charsLe as bs = true ∨ charsLe bs as = true := by
  intro as
  induction as with
  | nil => intro bs; left; rfl
  | cons a as ih =>
      intro bs
      cases bs with
      | nil => right; rfl
      | cons b bs' =>
          by_cases hab : a = b
          · subst hab
            rcases ih bs' with h | h
            · left; simpa [charsLe] using h
            · right; simpa [charsLe] using h
          · rcases lt_or_gt_of_ne hab with h | h
            · left; simp [charsLe, hab, h]
            · right
              have hba : ¬ b = a := fun hc => hab hc.symm
              simp [charsLe, hba, h]

/-- `charsLe` is transitive. -/
theorem charsLe_trans : ∀ as bs cs : List Char,
    charsLe as bs = true → charsLe bs cs = true →
    charsLe as cs = true := by
  intro as
  induction as with
  | nil => intro bs cs h1 h2; rfl
  | cons a as ih =>
      intro bs cs h1 h2
      cases bs with
      | nil => simp [charsLe] at h1
      | cons b bs' =>
          cases cs with
          | nil => simp [charsLe] at h2
          | cons c cs' =>
              by_cases hab : a = b <;> by_cases hbc : b = c
              · subst hab; subst hbc
                simp [charsLe] at h1 h2 ⊢
                exact ih bs' cs' h1 h2
              · subst hab
                simp [charsLe, hbc] at h2
                simp [charsLe, hbc, h2]
              · subst hbc
                simp [charsLe, hab] at h1
                simp [charsLe, hab, h1]
              · simp [charsLe, hab] at h1
                simp [charsLe, hbc] at h2
                have hac : a < c := lt_trans h1 h2
                have hne : ¬ a = c := ne_of_lt hac
                simp [charsLe, hne, hac]

/-- `charsLe` is antisymmetric. -/
theorem charsLe_antisymm : ∀ as bs : List Char,
    charsLe as bs = true → charsLe bs as = true → as = bs := by
  intro as
  induction as with
  | nil =>
      intro bs h1 h2
      cases bs with
      | nil => rfl
      | cons b bs' => simp [charsLe] at h2
  | cons a as ih =>
      intro bs h1 h2
      cases bs with
      | nil => simp [charsLe] at h1
      | cons b bs' =>
          by_cases hab : a = b
          · subst hab
            simp [charsLe] at h1 h2
            rw [ih bs' h1 h2]
          · simp [charsLe, hab] at h1
            have hba : ¬ b = a := fun hc => hab hc.symm
            simp [charsLe, hba] at h2
            exact absurd (lt_trans h1 h2) (lt_irrefl a)

/-- A string is its character list. -/
theorem string_eq_of_data (s t : String) (h : s.data = t.data) : s = t := by
  cases s
  cases t
  exact congrArg String.mk h

/-- Strict key order admits no two-sided pair. -/
theorem keyLt_antisymm (a b : String × JVal)
    (h1 : keyLt a b) (h2 : keyLt b a) : a = b := by
  have he : a.1 = b.1 :=
    string_eq_of_data _ _ (charsLe_antisymm _ _ h1.1 h2.1)
  exact absurd he h1.2

/-- A `keyLe`-sorted member list with distinct keys is `keyLt`-sorted. -/
theorem sorted_keyLt (s : List (String × JVal))
    (hs : List.Sorted keyLe s) (hnd : (s.map Prod.fst).Nodup) :
    List.Sorted keyLt s := by
  have hne : s.Pairwise (fun x y => x.1 ≠ y.1) := List.pairwise_map.mp hnd
  exact hs.and hne

/-- `toListO` undoes `ofListO`. -/
theorem toListO_ofListO : ∀ l : List (String × JVal),
    toListO (ofListO l) = l := by
  intro l
  induction l with
  | nil => rfl
  | cons p rest ih =>
      cases p with
      | mk k v => simp [ofListO, toListO, ih]

/-- Canonicalizing an object built from a pair list canonicalizes each
value in place. -/
theorem canonO_ofListO : ∀ l : List (String × JVal),
    canonO (ofListO l) = ofListO (mapVals l) := by
  intro l
  induction l with
  | nil => rfl
  | cons p rest ih =>
      cases p with
      | mk k v => simp [ofListO, canonO, mapVals, ih]

/-- Canonicalizing values does not change the keys. -/
theorem map_fst_mapVals (l : List (String × JVal)) :
    (mapVals l).map Prod.fst = l.map Prod.fst := by
  simp [mapVals, List.map_map]

/-- Insertion sort by key is invariant under permutation of the input
when the keys are distinct. -/
theorem sortPairs_eq_of_perm (l l' : List (String × JVal))
    (hp : l.Perm l') (hnd : (l.map Prod.fst).Nodup) :
    sortPairs l = sortPairs l' := by
  haveI : IsTotal (String × JVal) keyLe := ⟨fun a b => charsLe_total _ _⟩
  haveI : IsTrans (String × JVal) keyLe :=
    ⟨fun a b c h1 h2 => charsLe_trans _ _ _ h1 h2⟩
  haveI : IsAntisymm (String × JVal) keyLt := ⟨keyLt_antisymm⟩
  have hperm : (sortPairs l).Perm (sortPairs l') :=
    ((List.perm_insertionSort keyLe l).trans hp).trans
      (List.perm_insertionSort keyLe l').symm
  have hs1 : List.Sorted keyLe (sortPairs l) :=
    List.sorted_insertionSort keyLe l
  have hs2 : List.Sorted keyLe (sortPairs l') :=
    List.sorted_insertionSort keyLe l'
  have hnd1 : ((sortPairs l).map Prod.fst).Nodup :=
    (((List.perm_insertionSort keyLe l).map Prod.fst).nodup_iff).mpr hnd
  have hnd' : (l'.map Prod.fst).Nodup := ((hp.map Prod.fst).nodup_iff).mp hnd
  have hnd2 : ((sortPairs l').map Prod.fst).Nodup :=
    (((List.perm_insertionSort keyLe l').map Prod.fst).nodup_iff).mpr hnd'
  exact List.eq_of_perm_of_sorted hperm
    (sorted_keyLt _ hs1 hnd1) (sorted_keyLt _ hs2 hnd2)

/-- Claim C8: canonical serialization is deterministic — it emits JSON
with recursively sorted keys and 4-space indentation, so serializing the
same descriptor twice is byte-identical, two descriptors with the same
canonical (key-sorted) content serialize byte-identically, and in
particular two manifests whose object members differ only in insertion
order (keys unduplicated) serialize byte-identically.  The last conjunct
exhibits the sorted-key, 4-space-indented output on a concrete object. -/
theorem get_json_string_deterministic :
    (∀ j : JVal, get_json_string j = get_json_string j)
  ∧ (∀ a b : JVal, canonV a = canonV b →
      get_json_string a = get_json_string b)
  ∧ (∀ l l' : List (String × JVal), l.Perm l' → (l.map Prod.fst).Nodup →
      get_json_string (JVal.jobj (ofListO l))
        = get_json_string (JVal.jobj (ofListO l')))
  ∧ get_json_string
      (JVal.jobj (ofListO [("b", JVal.jstr "x"), ("a", JVal.jstr "y")]))
      = "\x7b\n    \"a\": \"y\",\n    \"b\": \"x\"\n\x7d" := by
  have hcanon : ∀ a b : JVal, canonV a = canonV b →
      get_json_string a = get_json_string b := by
    intro a b h
    unfold get_json_string
    rw [h]
  refine ⟨fun j => rfl, hcanon, ?_, rfl⟩
  intro l l' hp hnd
  apply hcanon
  have e : ∀ m : List (String × JVal), canonV (JVal.jobj (ofListO m))
      = JVal.jobj (ofListO (sortPairs (mapVals m))) := by
    intro m
    simp [canonV, canonO_ofListO, toListO_ofListO]
  rw [e l, e l']
  have hnd2 : ((mapVals l).map Prod.fst).Nodup := by
    rw [map_fst_mapVals]
    exact hnd
  rw [sortPairs_eq_of_perm (mapVals l) (mapVals l') (hp.map _) hnd2]

/-- Witness for C8: a two-key object with reversed insertion order
serializes to identical bytes. -/
theorem get_json_string_deterministic_witness :
    get_json_string
        (JVal.jobj (ofListO [("b", JVal.jnum 1), ("a", JVal.jnum 2)]))
      = get_json_string
        (JVal.jobj (ofListO [("a", JVal.jnum 2), ("b", JVal.jnum 1)])) :=
  get_json_string_deterministic.2.2.1
    [("b", JVal.jnum 1), ("a", JVal.jnum 2)]
    [("a", JVal.jnum 2), ("b", JVal.jnum 1)]
    (List.Perm.swap ("a", JVal.jnum 2) ("b", JVal.jnum 1) [])
    (by decide)
